import Mathlib

/-!
# Verification of the `configurable` package (Go)

A shallow embedding of `configurable.go`: a registry of named, typed
configuration slots, populated from command-line flags, environment
variables and decoded JSON/YAML/INI files.

Modelling conventions, matching the source:

* Go `map[string]interface{}` values (decoded file data) are embedded as
  association lists iterated in list order; Go's map iteration order is
  unspecified, and no claim below depends on a particular order for
  distinct keys.
* Go pointers into slots (`*int`, `*[]string`, ...) are embedded by value:
  the registry maps a name to the slot's current value, a getter returns
  the updated registry together with the pointed-at value (`none` embeds a
  nil pointer).
* Go `float64` payloads are embedded on the integral subdomain as `Int`
  (IEEE-754 arithmetic itself is out of scope; every claim below uses
  whole numbers, where `strconv.FormatFloat(v, 'f', -1, 64)` agrees with
  decimal integer formatting).
* `fmt.Errorf` interpolation of a `%v` interface value is elided from
  error strings; interpolation of plain strings (`%s`, and the
  `"error setting key %s: %w"` wrapper) is kept, since claims about error
  reporting only inspect those parts.
* Integer parsing is embedded without the 64-bit range check of
  `strconv.Atoi` / `strconv.ParseInt` (no claim exercises overflow).
-/

namespace Configurable

/-- A decoded configuration value, as produced by the JSON/YAML decoders:
Go's `interface{}` holding a number, string, boolean, array, or object.
Numbers (`float64` in Go) are modelled on the integral subdomain. -/
inductive GoValue where
  | vNum (n : Int)
  | vStr (s : String)
  | vBool (b : Bool)
  | vList (items : List GoValue)
  | vMap (entries : List (String × GoValue))

/-- A typed slot of the registry: the current value stored behind the
pointer that `NewInt`/`NewList`/... registered in `c.flags`.
Durations are in nanoseconds (Go `time.Duration`); the Go
`map[string]string` of a map slot is an association list with
insert-or-overwrite semantics. -/
inductive Slot where
  | sInt (v : Int)
  | sInt64 (v : Int)
  | sFloat64 (v : Int)
  | sString (v : String)
  | sBool (v : Bool)
  | sDuration (v : Int)
  | sList (v : List String)
  | sMap (v : List (String × String))
  deriving DecidableEq, Repr

/-- The registry's `flags` field: a finite map from name to slot,
embedded as an association list (Go map keys are unique; lookup returns
the first match). -/
abbrev Registry := List (String × Slot)

/-- Lookup in the `flags` map (`c.flags[name]`). -/
def lookupSlot : Registry → String → Option Slot
  | [], _ => none
  | (k, s) :: rest, name => if k = name then some s else lookupSlot rest name

/-- Assignment `c.flags[name] = slot` (and, equivalently in this
value-level model, mutation through the registered pointer): replaces the
entry if the key is present, otherwise appends it. -/
def setFlag : Registry → String → Slot → Registry
  | [], name, s => [(name, s)]
  | (k, v) :: rest, name, s =>
    if k = name then (k, s) :: rest else (k, v) :: setFlag rest name s

/-- Insert-or-overwrite into a Go `map[string]string`
(`m[k] = v`), on the association-list embedding. -/
def insertAssoc : List (String × String) → String → String → List (String × String)
  | [], k, v => [(k, v)]
  | (k', v') :: rest, k, v =>
    if k' = k then (k, v) :: rest else (k', v') :: insertAssoc rest k v

/-- Decimal digits to a natural number (helper for `strconv` parsing). -/
def charsToNat (cs : List Char) : Nat :=
  cs.foldl (fun n c => n * 10 + (c.toNat - 48)) 0

/-- `strconv.Atoi` / `strconv.ParseInt(v, 10, 64)`: optional sign followed
by at least one decimal digit; anything else is a syntax error (`none`).
The 64-bit range check is not modelled. -/
def goAtoi (s : String) : Option Int :=
  let cs := s.toList
  let signed : Bool × List Char :=
    match cs with
    | '-' :: r => (true, r)
    | '+' :: r => (false, r)
    | _ => (false, cs)
  match signed with
  | (neg, ds) =>
    if ds.isEmpty then none
    else if ds.all Char.isDigit then
      some (if neg then -(charsToNat ds : Int) else (charsToNat ds : Int))
    else none

/-- `strconv.ParseBool`: the exact literal set accepted by Go. -/
def goParseBool (s : String) : Option Bool :=
  if s = "1" ∨ s = "t" ∨ s = "T" ∨ s = "true" ∨ s = "TRUE" ∨ s = "True" then some true
  else if s = "0" ∨ s = "f" ∨ s = "F" ∨ s = "false" ∨ s = "FALSE" ∨ s = "False" then some false
  else none

/-- `toString` from the source: accept a string directly; render a number
(shortest round-trip decimal, which on the integral subdomain is plain
decimal) or a boolean (`strconv.FormatBool`); anything else errors. -/
def goToString : GoValue → Except String String
  | .vStr s => .ok s
  | .vNum n => .ok (toString n)
  | .vBool b => .ok (if b then "true" else "false")
  | _ => .error "cannot convert to string"

/-- `toInt` from the source: a numeric value is truncated to `int`
(identity on the integral subdomain), a string goes through
`strconv.Atoi`; anything else errors. -/
def toInt : GoValue → Except String Int
  | .vNum n => .ok n
  | .vStr s =>
    match goAtoi s with
    | some n => .ok n
    | none => .error "invalid syntax"
  | _ => .error "cannot convert to int"

/-- `toInt64` from the source: numeric value, or string via
`strconv.ParseInt(v, 10, 64)`. -/
def toInt64 : GoValue → Except String Int
  | .vNum n => .ok n
  | .vStr s =>
    match goAtoi s with
    | some n => .ok n
    | none => .error "invalid syntax"
  | _ => .error "cannot convert to int64"

/-- `toFloat64` from the source: numeric value directly, or string via
`strconv.ParseFloat` (modelled on integral decimal strings, the
subdomain used by the claims). -/
def toFloat64 : GoValue → Except String Int
  | .vNum n => .ok n
  | .vStr s =>
    match goAtoi s with
    | some n => .ok n
    | none => .error "invalid syntax"
  | _ => .error "cannot convert to float64"

/-- `toBool` from the source: boolean directly, or string via
`strconv.ParseBool`. -/
def toBool : GoValue → Except String Bool
  | .vBool b => .ok b
  | .vStr s =>
    match goParseBool s with
    | some b => .ok b
    | none => .error "invalid syntax"
  | _ => .error "cannot convert to bool"

/-- The scan of `strings.Split` for a one-character separator (the
source only splits on `","`): `acc` holds the current field reversed. -/
def splitCharsGo (sep : Char) : List Char → List Char → List (List Char)
  | [], acc => [acc.reverse]
  | c :: cs, acc =>
    if c = sep then acc.reverse :: splitCharsGo sep cs []
    else splitCharsGo sep cs (c :: acc)

/-- `strings.Split(s, sep)` for a one-character separator: the empty
string yields `[""]`, adjacent separators yield empty fields — exactly
Go's behavior. -/
def goSplit (sep : Char) (s : String) : List String :=
  (splitCharsGo sep s.toList []).map String.mk

/-- The scan of `strings.SplitN(s, sep, 2)`: stop at the first
occurrence of the separator, the rest is one field. -/
def splitN2Go (sep : Char) : List Char → List Char → List (List Char)
  | [], acc => [acc.reverse]
  | c :: cs, acc =>
    if c = sep then [acc.reverse, cs] else splitN2Go sep cs (c :: acc)

/-- `strings.SplitN(s, sep, 2)` for a one-character separator (the
source only splits pairs on `"="`): yields `[s]` when `sep` does not
occur, else the part before the first occurrence and everything after
it. -/
def splitN2 (sep : Char) (s : String) : List String :=
  (splitN2Go sep s.toList []).map String.mk

/-- Lower-casing of one character (`strings.ToLower` restricted to
ASCII; every recognized extension is ASCII). -/
def lowerChar (c : Char) : Char :=
  if 'A' ≤ c ∧ c ≤ 'Z' then Char.ofNat (c.toNat + 32) else c

/-- `strings.ToLower`, restricted to ASCII. -/
def goToLower (s : String) : String :=
  String.mk (s.toList.map lowerChar)

/-- The helper of `toStringSlice`'s sequence case: convert each decoded
item to a string with `toString` (here `goToString`); the first failure
aborts the whole conversion. -/
def mapStrings : List GoValue → Except String (List String)
  | [] => .ok []
  | v :: rest =>
    match goToString v with
    | .ok s =>
      match mapStrings rest with
      | .ok ss => .ok (s :: ss)
      | .error e => .error e
    | .error e => .error e

/-- `toStringSlice` from the source: a decoded sequence has each item
converted via the string rule; a string is split on `,`, with the empty
string yielding the empty sequence; anything else errors. -/
def toStringSlice : GoValue → Except String (List String)
  | .vList items => mapStrings items
  | .vStr s => if s = "" then .ok [] else .ok (goSplit ',' s)
  | _ => .error "cannot convert to string slice"

/-- The loop of `toStringMap`'s string case: each `,`-token is split on
the first `=`; a token without `=` fails the whole conversion, a
well-formed `k=v` token inserts into the result map being built. -/
def parsePairs : List String → List (String × String) → Except String (List (String × String))
  | [], acc => .ok acc
  | pair :: rest, acc =>
    match splitN2 '=' pair with
    | [k, v] => parsePairs rest (insertAssoc acc k v)
    | _ => .error ("invalid map item: " ++ pair)

/-- The loop of `toStringMap`'s object case: convert every value via the
string rule into a fresh result map; the first failure aborts. -/
def mapEntryStrings : List (String × GoValue) → List (String × String) → Except String (List (String × String))
  | [], acc => .ok acc
  | (k, v) :: rest, acc =>
    match goToString v with
    | .ok s => mapEntryStrings rest (insertAssoc acc k s)
    | .error e => .error e

/-- `toStringMap` from the source: a decoded object has its values
converted via the string rule; a string is split on `,` into `k=v`
pairs (empty string yields the empty map); anything else errors. The
result map is built fresh, so a failure returns before anything is
applied to a slot. -/
def toStringMap : GoValue → Except String (List (String × String))
  | .vMap entries => mapEntryStrings entries []
  | .vStr s => if s = "" then .ok [] else parsePairs (goSplit ',' s) []
  | _ => .error "cannot convert to string map"

/-- The unit table of Go's `time.ParseDuration`, in nanoseconds. -/
def durUnit : String → Option Int
  | "ns" => some 1
  | "us" => some 1000
  | "µs" => some 1000
  | "μs" => some 1000
  | "ms" => some 1000000
  | "s" => some 1000000000
  | "m" => some 60000000000
  | "h" => some 3600000000000
  | _ => none

/-- The position of `time.ParseDuration`'s scanning loop: reading the
decimal magnitude (`num v`), or reading the unit suffix that follows it
(`unit v ucs`, unit characters collected in reverse). -/
inductive DurState where
  | num (v : Nat)
  | unit (v : Nat) (ucs : List Char)

/-- The accumulation loop of `time.ParseDuration`: alternate runs of
decimal digits and unit characters; each completed magnitude-plus-unit
group adds magnitude x unit to the running total `d`; an unknown unit,
a missing unit, or a character that can start neither part fails. A
unit character is anything that is not a digit and not a decimal point.
Fractional magnitudes (`"1.5h"`, `".5s"`) are not modelled: Go computes
them with `float64` arithmetic, which is out of scope; a `.` is
rejected here, and every claim uses whole-number magnitudes, where this
loop agrees with Go exactly. -/
def durStep : DurState → List Char → Int → Except String Int
  | .num _, [], _ => .error "time: missing unit in duration"
  | .num v, c :: cs, d =>
    if c.isDigit then durStep (.num (v * 10 + (c.toNat - 48))) cs d
    else if c = '.' then .error "time: invalid duration"
    else durStep (.unit v [c]) cs d
  | .unit v ucs, [], d =>
    match durUnit (String.mk ucs.reverse) with
    | some mult => .ok (d + (v : Int) * mult)
    | none => .error "time: unknown unit in duration"
  | .unit v ucs, c :: cs, d =>
    if c.isDigit then
      match durUnit (String.mk ucs.reverse) with
      | some mult => durStep (.num (c.toNat - 48)) cs (d + (v : Int) * mult)
      | none => .error "time: unknown unit in duration"
    else if c = '.' then .error "time: invalid duration"
    else durStep (.unit v (c :: ucs)) cs d

/-- `time.ParseDuration`, restricted to whole-number magnitudes: an
optional sign, the special case `"0"`, then one or more
magnitude-plus-unit groups; the result is in nanoseconds. -/
def parseDuration (s : String) : Except String Int :=
  let cs := s.toList
  let signed : Bool × List Char :=
    match cs with
    | '-' :: r => (true, r)
    | '+' :: r => (false, r)
    | _ => (false, cs)
  match signed with
  | (neg, body) =>
    if body = ['0'] then .ok 0
    else
      match body with
      | [] => .error "time: invalid duration"
      | c :: rest =>
        if c.isDigit then
          match durStep (.num (c.toNat - 48)) rest 0 with
          | .ok d => .ok (if neg then -d else d)
          | .error e => .error e
        else .error "time: invalid duration"

/-- `setValue` from the source: type-directed coercion of a decoded value
into a slot. Every branch converts first and assigns only on success, so
a returned error leaves the slot's value as it was (the pure result here
is the slot the Go code leaves behind the pointer). List slots append the
converted items; map slots insert the converted pairs into the current
mapping. -/
def setValue (slot : Slot) (value : GoValue) : Except String Slot :=
  match slot with
  | .sInt _ =>
    match toInt value with
    | .ok n => .ok (.sInt n)
    | .error e => .error e
  | .sInt64 _ =>
    match toInt64 value with
    | .ok n => .ok (.sInt64 n)
    | .error e => .error e
  | .sFloat64 _ =>
    match toFloat64 value with
    | .ok n => .ok (.sFloat64 n)
    | .error e => .error e
  | .sString _ =>
    match goToString value with
    | .ok s => .ok (.sString s)
    | .error e => .error e
  | .sBool _ =>
    match toBool value with
    | .ok b => .ok (.sBool b)
    | .error e => .error e
  | .sDuration _ =>
    match goToString value with
    | .ok s =>
      match parseDuration s with
      | .ok d => .ok (.sDuration d)
      | .error e => .error e
    | .error e => .error e
  | .sList l =>
    match toStringSlice value with
    | .ok xs => .ok (.sList (l ++ xs))
    | .error e => .error e
  | .sMap m =>
    match toStringMap value with
    | .ok kvs => .ok (.sMap (kvs.foldl (fun acc kv => insertAssoc acc kv.1 kv.2) m))
    | .error e => .error e

/-- `ListFlag.Set` from the source, as invoked by the flag collaborator
on each command-line occurrence: split the raw value on `,` and append
the tokens to the current sequence; never fails. -/
def listFlagSet (l : List String) (value : String) : List String :=
  l ++ goSplit ',' value

/-- The loop of `MapFlag.Set`: each `,`-token without an `=` aborts with
a format error, but tokens already processed have ALREADY been inserted
into the mapping (the Go loop mutates `*m.values` in place before the
error is discovered), so the mapping reached so far is kept alongside
the error. -/
def mapFlagSetGo : List (String × String) → List String → List (String × String) × Option String
  | m, [] => (m, none)
  | m, pair :: rest =>
    match splitN2 '=' pair with
    | [k, v] => mapFlagSetGo (insertAssoc m k v) rest
    | _ => (m, some ("invalid map item: " ++ pair))

/-- `MapFlag.Set` from the source, as invoked by the flag collaborator:
split the raw value on `,` and run the insertion loop. -/
def mapFlagSet (m : List (String × String)) (value : String) : List (String × String) × Option String :=
  mapFlagSetGo m (goSplit ',' value)

/-- The environment collaborator: `os.LookupEnv`. -/
abbrev Env := String → Option String

/-- `checkAndSetFromEnv` from the source: if an environment variable
named exactly `name` exists and a slot of that name is registered, run
`setValue` with the raw string; the returned error is discarded, so a
parse failure leaves the registry untouched. -/
def checkAndSetFromEnv (env : Env) (c : Registry) (name : String) : Registry :=
  match env name with
  | some val =>
    match lookupSlot c name with
    | some slot =>
      match setValue slot (.vStr val) with
      | .ok slot' => setFlag c name slot'
      | .error _ => c
    | none => c
  | none => c

/-- `NewInt`: register an int slot holding the default value. -/
def NewInt (c : Registry) (name : String) (value : Int) : Registry :=
  setFlag c name (.sInt value)

/-- `NewInt64`: register an int64 slot holding the default value. -/
def NewInt64 (c : Registry) (name : String) (value : Int) : Registry :=
  setFlag c name (.sInt64 value)

/-- `NewFloat64`: register a float64 slot holding the default value
(integral subdomain). -/
def NewFloat64 (c : Registry) (name : String) (value : Int) : Registry :=
  setFlag c name (.sFloat64 value)

/-- `NewString`: register a string slot holding the default value. -/
def NewString (c : Registry) (name : String) (value : String) : Registry :=
  setFlag c name (.sString value)

/-- `NewBool`: register a bool slot holding the default value. -/
def NewBool (c : Registry) (name : String) (value : Bool) : Registry :=
  setFlag c name (.sBool value)

/-- `NewDuration`: register a duration slot holding the default value
(nanoseconds). -/
def NewDuration (c : Registry) (name : String) (value : Int) : Registry :=
  setFlag c name (.sDuration value)

/-- `NewList`: register a list slot holding the default sequence. -/
def NewList (c : Registry) (name : String) (value : List String) : Registry :=
  setFlag c name (.sList value)

/-- `NewMap`: register a map slot holding the default mapping. -/
def NewMap (c : Registry) (name : String) (value : List (String × String)) : Registry :=
  setFlag c name (.sMap value)

/-- The getter `Int(name)`: first re-check the environment, then return
the slot's value if a slot of that name and type exists (`none` embeds
the nil pointer). The updated registry is returned alongside, since the
environment check mutates the slot. -/
def getInt (env : Env) (c : Registry) (name : String) : Registry × Option Int :=
  let c' := checkAndSetFromEnv env c name
  (c', match lookupSlot c' name with
       | some (.sInt v) => some v
       | _ => none)

/-- The getter `Int64(name)`. -/
def getInt64 (env : Env) (c : Registry) (name : String) : Registry × Option Int :=
  let c' := checkAndSetFromEnv env c name
  (c', match lookupSlot c' name with
       | some (.sInt64 v) => some v
       | _ => none)

/-- The getter `Float64(name)`. -/
def getFloat64 (env : Env) (c : Registry) (name : String) : Registry × Option Int :=
  let c' := checkAndSetFromEnv env c name
  (c', match lookupSlot c' name with
       | some (.sFloat64 v) => some v
       | _ => none)

/-- The getter `String(name)`. -/
def getString (env : Env) (c : Registry) (name : String) : Registry × Option String :=
  let c' := checkAndSetFromEnv env c name
  (c', match lookupSlot c' name with
       | some (.sString v) => some v
       | _ => none)

/-- The getter `Bool(name)`. -/
def getBool (env : Env) (c : Registry) (name : String) : Registry × Option Bool :=
  let c' := checkAndSetFromEnv env c name
  (c', match lookupSlot c' name with
       | some (.sBool v) => some v
       | _ => none)

/-- The getter `Duration(name)`. -/
def getDuration (env : Env) (c : Registry) (name : String) : Registry × Option Int :=
  let c' := checkAndSetFromEnv env c name
  (c', match lookupSlot c' name with
       | some (.sDuration v) => some v
       | _ => none)

/-- The getter `List(name)` (returns `ptr.values`). -/
def getList (env : Env) (c : Registry) (name : String) : Registry × Option (List String) :=
  let c' := checkAndSetFromEnv env c name
  (c', match lookupSlot c' name with
       | some (.sList v) => some v
       | _ => none)

/-- The getter `Map(name)` (returns `ptr.values`). -/
def getMap (env : Env) (c : Registry) (name : String) : Registry × Option (List (String × String)) :=
  let c' := checkAndSetFromEnv env c name
  (c', match lookupSlot c' name with
       | some (.sMap v) => some v
       | _ => none)

/-- Scan of `filepath.Ext`, over the reversed character list: walk the
path from its end; a separator before any dot means no extension, the
first dot found yields the suffix from that dot on (`acc` collects the
characters already passed, in original order). -/
def extOfGo : List Char → List Char → String
  | [], _ => ""
  | c :: rest, acc =>
    if c = '/' then ""
    else if c = '.' then String.mk (c :: acc)
    else extOfGo rest (c :: acc)

/-- `filepath.Ext(path)`: the suffix beginning at the final dot in the
final path element; empty if there is no dot. -/
def extOf (path : String) : String :=
  extOfGo path.toList.reverse []

/-- `setValuesFromMap` from the source: iterate the decoded key→value
entries; keys without a registered slot are skipped; a key whose
`setValue` fails makes the whole call return at once with an error
naming that key — entries already applied stay applied (no rollback)
and the remaining entries are NOT processed. -/
def setValuesFromMap (c : Registry) : List (String × GoValue) → Registry × Option String
  | [] => (c, none)
  | (key, value) :: rest =>
    match lookupSlot c key with
    | some slot =>
      match setValue slot value with
      | .ok slot' => setValuesFromMap (setFlag c key slot') rest
      | .error e => (c, some ("error setting key " ++ key ++ ": " ++ e))
    | none => setValuesFromMap c rest

/-- The decode outcomes of one file's bytes under each supported
decoder — the external collaborators (`json.Unmarshal`, `yaml.Unmarshal`,
`ini.Load`) applied to the bytes `os.ReadFile` returned. The INI view is
the default section's key→string lookup, where a missing key reads as
`""` (as `cfg.Section("").Key(key).String()` does). -/
structure FileContents where
  jsonData : Except String (List (String × GoValue))
  yamlData : Except String (List (String × GoValue))
  iniData : Except String (String → String)

/-- `loadJSON` / `loadYAML` past the decoder: a decode failure is
returned as is (no slot touched), decoded data goes through
`setValuesFromMap`. -/
def loadDecoded (c : Registry) : Except String (List (String × GoValue)) → Registry × Option String
  | .ok data => setValuesFromMap c data
  | .error e => (c, some e)

/-- `loadINI` past `ini.Load`: for each registered name (in registry
order — Go iterates `c.flags` in unspecified order), a non-empty value
of the default section becomes a string entry; the collected entries go
through `setValuesFromMap`. -/
def loadINI (c : Registry) : Except String (String → String) → Registry × Option String
  | .error e => (c, some e)
  | .ok iniKey =>
    setValuesFromMap c
      ((c.map Prod.fst).filterMap fun key =>
        if iniKey key = "" then none else some (key, GoValue.vStr (iniKey key)))

/-- The `switch ext` of `LoadFile`: dispatch on the (already
lower-cased) extension, or fail with the unsupported-extension error
without touching any slot. -/
def loadByExt (c : Registry) (ext : String) (fc : FileContents) : Registry × Option String :=
  if ext = ".json" then loadDecoded c fc.jsonData
  else if ext = ".yaml" ∨ ext = ".yml" then loadDecoded c fc.yamlData
  else if ext = ".ini" then loadINI c fc.iniData
  else (c, some "unsupported file extension")

/-- `LoadFile` from the source, past the file read: take the filename's
extension, lower-case it, and dispatch. -/
def LoadFile (c : Registry) (filename : String) (fc : FileContents) : Registry × Option String :=
  loadByExt c (goToLower (extOf filename)) fc

/-! ## General lemmas about the registry -/

/-- Looking a name up right after `setFlag` stored a slot under it yields
exactly that slot. -/
theorem lookup_setFlag (c : Registry) (name : String) (s : Slot) :
    lookupSlot (setFlag c name s) name = some s := by
  induction c with
  | nil => simp [setFlag, lookupSlot]
  | cons kv rest ih =>
    obtain ⟨k, v⟩ := kv
    by_cases h : k = name
    · simp [setFlag, lookupSlot, h]
    · simp [setFlag, lookupSlot, h, ih]

/-! ## Claims -/

/-- C4: for every supported slot type, registering a slot under a fresh name
with a default value and immediately calling the matching typed getter, with
no environment variable of that name set, returns a non-nil pointer (`some`)
holding exactly the default. -/
theorem c4_register_get_default
    (env : Env) (c : Registry) (name : String) (henv : env name = none) :
    (∀ v : Int, (getInt env (NewInt c name v) name).2 = some v) ∧
    (∀ v : Int, (getInt64 env (NewInt64 c name v) name).2 = some v) ∧
    (∀ v : Int, (getFloat64 env (NewFloat64 c name v) name).2 = some v) ∧
    (∀ v : String, (getString env (NewString c name v) name).2 = some v) ∧
    (∀ v : Bool, (getBool env (NewBool c name v) name).2 = some v) ∧
    (∀ v : Int, (getDuration env (NewDuration c name v) name).2 = some v) ∧
    (∀ v : List String, (getList env (NewList c name v) name).2 = some v) ∧
    (∀ v : List (String × String), (getMap env (NewMap c name v) name).2 = some v) := by
  refine ⟨?_, ?_, ?_, ?_, ?_, ?_, ?_, ?_⟩ <;> intro v <;>
    simp [getInt, getInt64, getFloat64, getString, getBool, getDuration, getList, getMap,
      NewInt, NewInt64, NewFloat64, NewString, NewBool, NewDuration, NewList, NewMap,
      checkAndSetFromEnv, henv, lookup_setFlag]

/-- Witness for C4: a fresh int slot with default 8080 reads back 8080. -/
theorem c4_register_get_default_witness :
    (getInt (fun _ => none) (NewInt [] "port" 8080) "port").2 = some 8080 :=
  (c4_register_get_default (fun _ => none) [] "port" rfl).1 8080

/-- C7: setting a map slot from the raw string `"k1=v1,k2=v2"` (starting
empty) yields exactly the two entries k1↦v1 and k2↦v2, and setting any map
slot from `"bad"` (no `=`) fails with a format error and leaves the mapping
unchanged. -/
theorem c7_map_set_pairs_and_error :
    mapFlagSet [] "k1=v1,k2=v2" = ([("k1", "v1"), ("k2", "v2")], none) ∧
    (∀ m : List (String × String), mapFlagSet m "bad" = (m, some "invalid map item: bad")) :=
  ⟨rfl, fun _ => rfl⟩

/-- C8: a duration slot set from the string `"5m"` becomes exactly 5 minutes
(300000000000 ns); set from the bare numeric value 5 it fails — the number
is rendered as `"5"`, which has no unit suffix — and the error is returned
before any assignment, so the slot keeps its previous value. -/
theorem c8_duration_requires_unit :
    (∀ d0 : Int, setValue (.sDuration d0) (.vStr "5m") = .ok (.sDuration 300000000000)) ∧
    (∀ d0 : Int, setValue (.sDuration d0) (.vNum 5) = .error "time: missing unit in duration") :=
  ⟨fun _ => rfl, fun _ => rfl⟩

/-- Scanning `extOfGo` over characters that are neither a dot nor a path
separator accumulates them; the first dot ends the scan with the suffix
from that dot on. -/
theorem extOfGo_append (revpart : List Char) (rest acc : List Char)
    (h : ∀ ch ∈ revpart, ch ≠ '.' ∧ ch ≠ '/') :
    extOfGo (revpart ++ '.' :: rest) acc = String.mk ('.' :: (revpart.reverse ++ acc)) := by
  induction revpart generalizing acc with
  | nil => simp [extOfGo]
  | cons ch tail ih =>
    obtain ⟨h1, h2⟩ := h ch (by simp)
    rw [List.cons_append]
    show extOfGo (ch :: (tail ++ '.' :: rest)) acc = _
    rw [extOfGo]
    simp only [h1, h2, if_false]
    rw [ih (ch :: acc) (fun x hx => h x (List.mem_cons_of_mem ch hx))]
    simp

/-- `filepath.Ext` of any path extended by a dot and an extension whose
characters contain no further dot or separator is exactly that
dot-extension, whatever the path before it. -/
theorem extOf_concat (base : String) (tail : List Char)
    (h : ∀ ch ∈ tail, ch ≠ '.' ∧ ch ≠ '/') :
    extOf (base ++ String.mk ('.' :: tail)) = String.mk ('.' :: tail) := by
  unfold extOf
  have hdata : (base ++ String.mk ('.' :: tail)).toList = base.toList ++ '.' :: tail := by
    simp [String.toList]
  rw [hdata, List.reverse_append, List.reverse_cons, List.append_assoc]
  rw [List.singleton_append]
  rw [extOfGo_append tail.reverse _ [] (fun x hx => h x (List.mem_reverse.mp hx))]
  simp

/-- C5: a LoadFile on a filename whose extension — compared
case-insensitively, as the dispatch lower-cases it (see C10) — is none of
.json, .yaml, .yml, .ini returns the unsupported-extension error and leaves
every registered slot unchanged. -/
theorem c5_unsupported_extension
    (c : Registry) (filename : String) (fc : FileContents)
    (hext : goToLower (extOf filename) ∉ ([".json", ".yaml", ".yml", ".ini"] : List String)) :
    LoadFile c filename fc = (c, some "unsupported file extension") := by
  simp only [List.mem_cons, List.not_mem_nil, or_false, not_or] at hext
  obtain ⟨h1, h2, h3, h4⟩ := hext
  simp [LoadFile, loadByExt, h1, h2, h3, h4]

/-- Witness for C5: loading `config.txt` fails and the registry is kept. -/
theorem c5_unsupported_extension_witness :
    LoadFile [("port", Slot.sInt 8080)] "config.txt"
      ⟨.ok [("port", .vNum 9090)], .error "", .error ""⟩
      = ([("port", Slot.sInt 8080)], some "unsupported file extension") :=
  c5_unsupported_extension _ _ _ (by decide)

/-- C10: LoadFile matches the extension case-insensitively — the extension
is lower-cased before dispatch, so for any registry and any decoded
contents, a path ending in `.JSON`, `.Yaml`, `.YML` or `.INI` loads exactly
as the same path with the lower-case extension. -/
theorem c10_extension_case_insensitive
    (c : Registry) (fc : FileContents) (base : String) :
    LoadFile c (base ++ ".JSON") fc = LoadFile c (base ++ ".json") fc ∧
    LoadFile c (base ++ ".Yaml") fc = LoadFile c (base ++ ".yaml") fc ∧
    LoadFile c (base ++ ".YML") fc = LoadFile c (base ++ ".yml") fc ∧
    LoadFile c (base ++ ".INI") fc = LoadFile c (base ++ ".ini") fc := by
  have e1 : extOf (base ++ ".JSON") = ".JSON" :=
    extOf_concat base ['J', 'S', 'O', 'N'] (by decide)
  have e2 : extOf (base ++ ".json") = ".json" :=
    extOf_concat base ['j', 's', 'o', 'n'] (by decide)
  have e3 : extOf (base ++ ".Yaml") = ".Yaml" :=
    extOf_concat base ['Y', 'a', 'm', 'l'] (by decide)
  have e4 : extOf (base ++ ".yaml") = ".yaml" :=
    extOf_concat base ['y', 'a', 'm', 'l'] (by decide)
  have e5 : extOf (base ++ ".YML") = ".YML" :=
    extOf_concat base ['Y', 'M', 'L'] (by decide)
  have e6 : extOf (base ++ ".yml") = ".yml" :=
    extOf_concat base ['y', 'm', 'l'] (by decide)
  have e7 : extOf (base ++ ".INI") = ".INI" :=
    extOf_concat base ['I', 'N', 'I'] (by decide)
  have e8 : extOf (base ++ ".ini") = ".ini" :=
    extOf_concat base ['i', 'n', 'i'] (by decide)
  refine ⟨?_, ?_, ?_, ?_⟩ <;>
    simp only [LoadFile, e1, e2, e3, e4, e5, e6, e7, e8] <;> rfl

/-- C1 counterexample: with the list slot `tags` holding `["x"]` and the
environment variable `tags` set to `"a,b"` (which parses — every string
does, for a list), the List getter returns `["x", "a", "b"]` and not the
parsed environment value `["a", "b"]`: the environment value does not
overwrite a list slot, it is appended. -/
theorem c1_counterexample :
    (getList (fun n => if n = "tags" then some "a,b" else none)
        [("tags", Slot.sList ["x"])] "tags").2 = some ["x", "a", "b"] ∧
    (["x", "a", "b"] : List String) ≠ goSplit ',' "a,b" :=
  ⟨rfl, by decide⟩

/-- C1 (amended): every typed getter re-applies the environment variable of
the slot's name before returning; a parsing value OVERWRITES scalar slots
(int, int64, float64, string, bool, duration), so the getter returns the
environment-derived value there; for a list slot the comma-split
environment tokens are APPENDED to the current sequence, and for a map
slot the parsed environment pairs are MERGED into the current mapping. -/
theorem c1_env_override
    (env : Env) (c : Registry) (name sv : String) (henv : env name = some sv) :
    (∀ pre n, lookupSlot c name = some (.sInt pre) → goAtoi sv = some n →
        (getInt env c name).2 = some n) ∧
    (∀ pre n, lookupSlot c name = some (.sInt64 pre) → goAtoi sv = some n →
        (getInt64 env c name).2 = some n) ∧
    (∀ pre n, lookupSlot c name = some (.sFloat64 pre) → goAtoi sv = some n →
        (getFloat64 env c name).2 = some n) ∧
    (∀ pre, lookupSlot c name = some (.sString pre) →
        (getString env c name).2 = some sv) ∧
    (∀ pre b, lookupSlot c name = some (.sBool pre) → goParseBool sv = some b →
        (getBool env c name).2 = some b) ∧
    (∀ pre d, lookupSlot c name = some (.sDuration pre) → parseDuration sv = .ok d →
        (getDuration env c name).2 = some d) ∧
    (∀ pre, lookupSlot c name = some (.sList pre) → sv ≠ "" →
        (getList env c name).2 = some (pre ++ goSplit ',' sv)) ∧
    (∀ pre kvs, lookupSlot c name = some (.sMap pre) → toStringMap (.vStr sv) = .ok kvs →
        (getMap env c name).2
          = some (kvs.foldl (fun acc kv => insertAssoc acc kv.1 kv.2) pre)) := by
  refine ⟨?_, ?_, ?_, ?_, ?_, ?_, ?_, ?_⟩
  · intro pre n hs hp
    simp [getInt, checkAndSetFromEnv, henv, hs, setValue, toInt, hp, lookup_setFlag]
  · intro pre n hs hp
    simp [getInt64, checkAndSetFromEnv, henv, hs, setValue, toInt64, hp, lookup_setFlag]
  · intro pre n hs hp
    simp [getFloat64, checkAndSetFromEnv, henv, hs, setValue, toFloat64, hp, lookup_setFlag]
  · intro pre hs
    simp [getString, checkAndSetFromEnv, henv, hs, setValue, goToString, lookup_setFlag]
  · intro pre b hs hp
    simp [getBool, checkAndSetFromEnv, henv, hs, setValue, toBool, hp, lookup_setFlag]
  · intro pre d hs hp
    simp [getDuration, checkAndSetFromEnv, henv, hs, setValue, goToString, hp, lookup_setFlag]
  · intro pre hne hs
    simp [getList, checkAndSetFromEnv, henv, hne, hs, setValue, toStringSlice, lookup_setFlag]
  · intro pre kvs hs hp
    simp [getMap, checkAndSetFromEnv, henv, hs, setValue, hp, lookup_setFlag]

/-- Witness for C1 (amended): with `port=9090` in the environment, the Int
getter returns 9090 over the prior 8080. -/
theorem c1_env_override_witness :
    (getInt (fun n => if n = "port" then some "9090" else none)
        [("port", Slot.sInt 8080)] "port").2 = some 9090 :=
  (c1_env_override (fun n => if n = "port" then some "9090" else none)
      [("port", Slot.sInt 8080)] "port" "9090" rfl).1 8080 9090 rfl rfl

/-- C2 counterexample: with int slots `a` and `b` and decoded data holding a
failing value for `a` before a valid 9 for `b`, the load stops at `a`: it
reports `a` in its error but `b` keeps its old value 2 — the remaining key
is NOT applied, contradicting the claim that processing continues. -/
theorem c2_counterexample :
    setValuesFromMap [("a", Slot.sInt 1), ("b", Slot.sInt 2)]
        [("a", .vStr "x"), ("b", .vNum 9)]
      = ([("a", Slot.sInt 1), ("b", Slot.sInt 2)],
          some "error setting key a: invalid syntax") ∧
    lookupSlot (setValuesFromMap [("a", Slot.sInt 1), ("b", Slot.sInt 2)]
        [("a", .vStr "x"), ("b", .vNum 9)]).1 "b" ≠ some (Slot.sInt 9) :=
  ⟨rfl, by decide⟩

/-- C2 (amended): a coercion error on a key HALTS the load at that key: the
call returns at once with an error naming the first failing key, entries
applied earlier in the iteration stay applied (no rollback), the entries
after the failing one are not processed, and unregistered keys are
skipped. -/
theorem c2_first_error_halts
    (c : Registry) (key : String) (value : GoValue) (rest : List (String × GoValue)) :
    (∀ slot e, lookupSlot c key = some slot → setValue slot value = .error e →
        setValuesFromMap c ((key, value) :: rest)
          = (c, some ("error setting key " ++ key ++ ": " ++ e))) ∧
    (∀ slot slot', lookupSlot c key = some slot → setValue slot value = .ok slot' →
        setValuesFromMap c ((key, value) :: rest)
          = setValuesFromMap (setFlag c key slot') rest) ∧
    (lookupSlot c key = none →
        setValuesFromMap c ((key, value) :: rest) = setValuesFromMap c rest) := by
  refine ⟨?_, ?_, ?_⟩
  · intro slot e hs he
    simp [setValuesFromMap, hs, he]
  · intro slot slot' hs ho
    simp [setValuesFromMap, hs, ho]
  · intro hn
    simp [setValuesFromMap, hn]

/-- Witness for C2 (amended): a failing key halts a concrete load with the
key named in the error and the registry as accumulated so far. -/
theorem c2_first_error_halts_witness :
    setValuesFromMap [("a", Slot.sInt 1)] [("a", GoValue.vStr "x")]
      = ([("a", Slot.sInt 1)], some "error setting key a: invalid syntax") :=
  (c2_first_error_halts [("a", Slot.sInt 1)] "a" (GoValue.vStr "x") []).1
    (Slot.sInt 1) "invalid syntax" rfl rfl

/-- C3 counterexample: `MapFlag.Set` on an empty mapping with the raw
string `"k1=v1,bad"` — one valid pair followed by a malformed token —
returns a format error, yet the mapping now holds `k1 ↦ v1`: it was NOT
left exactly as it was before the call. -/
theorem c3_counterexample :
    mapFlagSet [] "k1=v1,bad" = ([("k1", "v1")], some "invalid map item: bad") ∧
    ([("k1", "v1")] : List (String × String)) ≠ [] :=
  ⟨rfl, by decide⟩

/-- C3 (amended): on the coercion path (`setValue`, used for file loads and
environment overrides) a failure leaves the slot untouched — in particular
a failing environment parse leaves the whole registry unchanged. But
`MapFlag.Set`, the raw command-line path, inserts each well-formed
`key=value` token as it scans and aborts at the first malformed token, so
pairs preceding the malformed token remain inserted despite the returned
error. -/
theorem c3_failed_set_retention :
    (∀ (env : Env) (c : Registry) (name sv : String) (slot : Slot) (e : String),
        env name = some sv → lookupSlot c name = some slot →
        setValue slot (.vStr sv) = .error e →
        checkAndSetFromEnv env c name = c) ∧
    (∀ m pair rest k v, splitN2 '=' pair = [k, v] →
        mapFlagSetGo m (pair :: rest) = mapFlagSetGo (insertAssoc m k v) rest) ∧
    (∀ m pair rest x, splitN2 '=' pair = [x] →
        mapFlagSetGo m (pair :: rest) = (m, some ("invalid map item: " ++ pair))) := by
  refine ⟨?_, ?_, ?_⟩
  · intro env c name sv slot e he hs hv
    simp [checkAndSetFromEnv, he, hs, hv]
  · intro m pair rest k v hsp
    simp [mapFlagSetGo, hsp]
  · intro m pair rest x hsp
    simp [mapFlagSetGo, hsp]

/-- Witness for C3 (amended): an unparsable environment value for an int
slot leaves the registry exactly as it was. -/
theorem c3_failed_set_retention_witness :
    checkAndSetFromEnv (fun n => if n = "port" then some "zzz" else none)
      [("port", Slot.sInt 8080)] "port" = [("port", Slot.sInt 8080)] :=
  c3_failed_set_retention.1 (fun n => if n = "port" then some "zzz" else none)
    [("port", Slot.sInt 8080)] "port" "zzz" (Slot.sInt 8080) "invalid syntax" rfl rfl rfl

/-- C6: list slots accumulate, never replace: a command-line occurrence
appends its comma-split tokens, an environment or raw-string set appends
its comma-split tokens, a file-loaded sequence appends its items after
string conversion; loading `{"tags": ["a","b"]}` and then `{"tags": ["c"]}`
against a list slot `tags` (empty default) yields `["a","b","c"]`. -/
theorem c6_list_accumulates :
    (∀ l value, listFlagSet l value = l ++ goSplit ',' value) ∧
    (∀ l s, s ≠ "" → setValue (.sList l) (.vStr s) = .ok (.sList (l ++ goSplit ',' s))) ∧
    (∀ l items ss, mapStrings items = .ok ss →
        setValue (.sList l) (.vList items) = .ok (.sList (l ++ ss))) ∧
    (LoadFile (LoadFile [("tags", Slot.sList [])] "t.json"
          ⟨.ok [("tags", .vList [.vStr "a", .vStr "b"])], .error "", .error ""⟩).1
        "t.json" ⟨.ok [("tags", .vList [.vStr "c"])], .error "", .error ""⟩).1
      = [("tags", Slot.sList ["a", "b", "c"])] := by
  refine ⟨fun l value => rfl, ?_, ?_, rfl⟩
  · intro l s hs
    simp [setValue, toStringSlice, hs]
  · intro l items ss h
    simp [setValue, toStringSlice, h]

/-- Witness for C6: appending one token to a two-element list slot. -/
theorem c6_list_accumulates_witness :
    setValue (Slot.sList ["a", "b"]) (GoValue.vStr "c")
      = .ok (Slot.sList ["a", "b", "c"]) :=
  c6_list_accumulates.2.1 ["a", "b"] "c" (by decide)

/-- C9: reading a list slot is not idempotent while its environment
variable holds a non-empty string: every List getter call appends the
comma-split environment tokens again, so two consecutive reads leave the
slot with the tokens appended twice. -/
theorem c9_list_get_not_idempotent
    (env : Env) (c : Registry) (name sv : String) (l : List String)
    (henv : env name = some sv) (hne : sv ≠ "")
    (hslot : lookupSlot c name = some (.sList l)) :
    (getList env c name).2 = some (l ++ goSplit ',' sv) ∧
    (getList env (getList env c name).1 name).2
      = some ((l ++ goSplit ',' sv) ++ goSplit ',' sv) := by
  have h1 : checkAndSetFromEnv env c name
      = setFlag c name (.sList (l ++ goSplit ',' sv)) := by
    simp [checkAndSetFromEnv, henv, hslot, setValue, toStringSlice, hne]
  have h2 : lookupSlot (setFlag c name (.sList (l ++ goSplit ',' sv))) name
      = some (.sList (l ++ goSplit ',' sv)) :=
    lookup_setFlag c name (.sList (l ++ goSplit ',' sv))
  constructor
  · simp [getList, h1, h2]
  · show (getList env (checkAndSetFromEnv env c name) name).2 = _
    rw [h1]
    simp [getList, checkAndSetFromEnv, henv, h2, setValue, toStringSlice, hne,
      lookup_setFlag]

/-- Witness for C9: with `tags=a` set, two consecutive List reads of a slot
that started empty yield `["a", "a"]`. -/
theorem c9_list_get_not_idempotent_witness :
    (getList (fun n => if n = "tags" then some "a" else none)
        (getList (fun n => if n = "tags" then some "a" else none)
          [("tags", Slot.sList [])] "tags").1 "tags").2 = some ["a", "a"] :=
  (c9_list_get_not_idempotent (fun n => if n = "tags" then some "a" else none)
      [("tags", Slot.sList [])] "tags" "a" [] rfl (by decide) rfl).2

end Configurable
